import Mathlib

/-!
Shallow embedding of `src/lib/pyodide/scripts/validate.py`.

The script defines a single function `validate_language(repo_path) -> str`:

  def validate_language(repo_path: str) -> str:
      sys.path.insert(0, repo_path)
      try:
          from yaduha.loader import LanguageLoader
          language = LanguageLoader.load_language_from_source(repo_path)
          result = \x7b"valid": True, "language": language.code,
                    "name": language.name,
                    "sentence_types": [st.__name__ for st in language.sentence_types]\x7d
      except Exception as e:
          result = \x7b"valid": False, "error": str(e), "error_type": type(e).__name__\x7d
      return json.dumps(result)

The external collaborators (the `yaduha.loader` module and its
`LanguageLoader.load_language_from_source`) are out of scope for the program;
they are embedded as an explicit environment `Env` whose operations either
return a value or raise a Python exception.  A raised exception is modelled as
the `Except.error` branch carrying a `PyExc`: its `str(e)` text, its
`type(e).__name__` class name, and whether the object is an instance of
`Exception` (as opposed to a bare `BaseException` such as `SystemExit` or
`KeyboardInterrupt`, which `except Exception` does not catch).

The process-wide `sys.path` list is passed in and returned explicitly.
-/

namespace PyValidate

/-- JSON values, covering the fragment produced by this script:
booleans, strings, arrays and objects (Python dicts keep insertion order,
and `json.dumps` serializes keys in that order). -/
inductive JValue where
  | jBool (b : Bool)
  | jStr (s : String)
  | jArr (elems : List JValue)
  | jObj (fields : List (String × JValue))

/-- Hexadecimal digit character, lower case, as CPython emits in escapes. -/
def hexDigitChar (n : Nat) : Char :=
  if n < 10 then Char.ofNat (48 + n) else Char.ofNat (87 + n)

/-- Four-digit hexadecimal rendering used in a JSON escape. -/
def toHex4 (n : Nat) : String :=
  String.mk [hexDigitChar (n / 4096 % 16), hexDigitChar (n / 256 % 16),
             hexDigitChar (n / 16 % 16), hexDigitChar (n % 16)]

/-- Escaping of one character inside a JSON string literal, following
CPython `json.dumps` with its default `ensure_ascii=True`: quote, backslash
and the usual control shorthands get a backslash form, other characters in
the printable ASCII range 0x20-0x7E are emitted raw, and everything else
becomes a \u escape (a surrogate pair above 0xFFFF). -/
def escapeChar (c : Char) : String :=
  if c = Char.ofNat 34 then String.mk [Char.ofNat 92, Char.ofNat 34]
  else if c = Char.ofNat 92 then String.mk [Char.ofNat 92, Char.ofNat 92]
  else if c = Char.ofNat 8 then String.mk [Char.ofNat 92, Char.ofNat 98]
  else if c = Char.ofNat 9 then String.mk [Char.ofNat 92, Char.ofNat 116]
  else if c = Char.ofNat 10 then String.mk [Char.ofNat 92, Char.ofNat 110]
  else if c = Char.ofNat 12 then String.mk [Char.ofNat 92, Char.ofNat 102]
  else if c = Char.ofNat 13 then String.mk [Char.ofNat 92, Char.ofNat 114]
  else if 32 ≤ c.toNat ∧ c.toNat ≤ 126 then String.mk [c]
  else if c.toNat < 65536 then "\\u" ++ toHex4 c.toNat
  else
    "\\u" ++ toHex4 (55296 + (c.toNat - 65536) / 1024) ++
    "\\u" ++ toHex4 (56320 + (c.toNat - 65536) % 1024)

/-- Concatenated escaping of a character sequence. -/
def escapeList : List Char → List Char
  | [] => []
  | c :: rest => (escapeChar c).data ++ escapeList rest

/-- Serialization of a string as a JSON string literal. -/
def dumpString (s : String) : String :=
  String.mk (Char.ofNat 34 :: escapeList s.data ++ [Char.ofNat 34])

mutual

/-- Embedding of `json.dumps` with its default separators
(`", "` between items, `": "` after a key). -/
def dumps : JValue → String
  | .jBool true => "true"
  | .jBool false => "false"
  | .jStr s => dumpString s
  | .jArr elems => "[" ++ dumpsElems elems ++ "]"
  | .jObj fields => "\x7b" ++ dumpsFields fields ++ "\x7d"

/-- Comma-separated serialization of array elements. -/
def dumpsElems : List JValue → String
  | [] => ""
  | [v] => dumps v
  | v :: w :: rest => dumps v ++ ", " ++ dumpsElems (w :: rest)

/-- Comma-separated serialization of object entries. -/
def dumpsFields : List (String × JValue) → String
  | [] => ""
  | [(k, v)] => dumpString k ++ ": " ++ dumps v
  | (k, v) :: kv :: rest => dumpString k ++ ": " ++ dumps v ++ ", " ++ dumpsFields (kv :: rest)

end

/-- A raised Python exception object as observed by the script:
`str(e)`, `type(e).__name__`, and whether it is an instance of `Exception`
(the class caught by the script's `except Exception` clause; `SystemExit`,
`KeyboardInterrupt` and other bare `BaseException` descendants are not). -/
structure PyExc where
  msg : String
  typeName : String
  isException : Bool
deriving Repr, DecidableEq

/-- A sentence-type object from the loaded language.  The script reads its
`__name__` attribute; a malformed entry may lack it, in which case the
attribute access raises `AttributeError`. -/
structure SentenceType where
  __name__ : Option String
deriving Repr, DecidableEq

/-- The language object returned by the external loader, with the three
attributes the script reads: `code`, `name` and `sentence_types`. -/
structure Language where
  code : String
  name : String
  sentence_types : List SentenceType
deriving Repr, DecidableEq

/-- The `LanguageLoader` class imported from `yaduha.loader`.  Its
`load_language_from_source` classmethod receives the interpreter's module
search path (which it consults to import the package) and the `repo_path`
argument, and either returns a language object or raises. -/
structure LanguageLoader where
  load_language_from_source : List String → String → Except PyExc Language

/-- The external world the script runs against: the statement
`from yaduha.loader import LanguageLoader` resolves `yaduha.loader` against
the current module search path and either yields the class or raises
(e.g. `ModuleNotFoundError`). -/
structure Env where
  importLanguageLoader : List String → Except PyExc LanguageLoader

/-- The `AttributeError` raised by `st.__name__` on an object lacking the
attribute.  `AttributeError` derives from `Exception`. -/
def attrNameError : PyExc :=
  { msg := "object has no attribute __name__",
    typeName := "AttributeError", isException := true }

/-- Attribute access `st.__name__`: yields the name, or raises
`AttributeError` when the attribute is absent. -/
def getDunderName (st : SentenceType) : Except PyExc String :=
  match st.__name__ with
  | some n => Except.ok n
  | none => Except.error attrNameError

/-- The list comprehension `[st.__name__ for st in language.sentence_types]`:
attribute accesses happen left to right and the first raised exception
propagates. -/
def extractNames : List SentenceType → Except PyExc (List String)
  | [] => Except.ok []
  | st :: rest =>
      match getDunderName st with
      | Except.error e => Except.error e
      | Except.ok n =>
          match extractNames rest with
          | Except.error e => Except.error e
          | Except.ok ns => Except.ok (n :: ns)

/-- The success-variant result dict built on the `try` path. -/
def successResult (language : Language) (names : List String) : JValue :=
  JValue.jObj
    [("valid", JValue.jBool true),
     ("language", JValue.jStr language.code),
     ("name", JValue.jStr language.name),
     ("sentence_types", JValue.jArr (names.map JValue.jStr))]

/-- The failure-variant result dict built in the `except Exception` handler. -/
def failureResult (e : PyExc) : JValue :=
  JValue.jObj
    [("valid", JValue.jBool false),
     ("error", JValue.jStr e.msg),
     ("error_type", JValue.jStr e.typeName)]

/-- The body of the `try` block: import the loader, load the language,
extract the three fields.  `Except.error` models an exception propagating
out of the block. -/
def tryBody (env : Env) (repo_path : String) (sysPath : List String) :
    Except PyExc JValue :=
  match env.importLanguageLoader sysPath with
  | Except.error e => Except.error e
  | Except.ok loader =>
      match loader.load_language_from_source sysPath repo_path with
      | Except.error e => Except.error e
      | Except.ok language =>
          match extractNames language.sentence_types with
          | Except.error e => Except.error e
          | Except.ok names => Except.ok (successResult language names)

/-- Embedding of `validate_language`.  Takes the current `sys.path` and
returns it alongside the outcome: `sys.path.insert(0, repo_path)` prepends
`repo_path`, then the `try` body runs; an exception that is an instance of
`Exception` is converted to the failure dict by the handler, any other
raised object propagates to the caller (`Except.error`).  The returned
dict is serialized with `json.dumps`. -/
def validate_language (env : Env) (repo_path : String) (sysPath : List String) :
    Except PyExc String × List String :=
  let sysPath' := repo_path :: sysPath
  (match tryBody env repo_path sysPath' with
   | Except.ok v => Except.ok (dumps v)
   | Except.error e =>
       if e.isException then Except.ok (dumps (failureResult e))
       else Except.error e,
   sysPath')

/-! Observation helpers on JSON values, used to state the claims. -/

/-- Field lookup in a JSON object (first binding wins, as in a dict). -/
def getField (v : JValue) (k : String) : Option JValue :=
  match v with
  | JValue.jObj fields => fields.lookup k
  | _ => none

/-- The Success variant schema: exactly the keys `valid` (true),
`language` (string), `name` (string), `sentence_types` (array of strings). -/
def isSuccessSchema (v : JValue) : Prop :=
  ∃ (c n : String) (ts : List String),
    v = JValue.jObj
      [("valid", JValue.jBool true),
       ("language", JValue.jStr c),
       ("name", JValue.jStr n),
       ("sentence_types", JValue.jArr (ts.map JValue.jStr))]

/-- The Failure variant schema: exactly the keys `valid` (false),
`error` (string), `error_type` (string). -/
def isFailureSchema (v : JValue) : Prop :=
  ∃ (err et : String),
    v = JValue.jObj
      [("valid", JValue.jBool false),
       ("error", JValue.jStr err),
       ("error_type", JValue.jStr et)]

/-- A value that is flat as an object member: a boolean, a string, or an
array of strings — in particular not a nested object. -/
def isFlatMember : JValue → Prop
  | JValue.jBool _ => True
  | JValue.jStr _ => True
  | JValue.jArr elems => ∀ x ∈ elems, ∃ s, x = JValue.jStr s
  | JValue.jObj _ => False

/-- A flat JSON object: an object all of whose member values are flat. -/
def isFlatObj : JValue → Prop
  | JValue.jObj fields => ∀ kv ∈ fields, isFlatMember kv.2
  | _ => False

/-! Concrete environments, used for witnesses and counterexamples. -/

/-- A well-formed loaded language: short code `num`, display name
`Numeric Language`, sentence types named `Declarative` and `Question`. -/
def numLanguage : Language :=
  { code := "num", name := "Numeric Language",
    sentence_types := [⟨some "Declarative"⟩, ⟨some "Question"⟩] }

/-- The loader of `goodEnv`, loading `numLanguage` for any path. -/
def goodLoader : LanguageLoader :=
  { load_language_from_source := fun _ _ => Except.ok numLanguage }

/-- An environment in which the import succeeds and the loader loads
`numLanguage` for any path. -/
def goodEnv : Env :=
  { importLanguageLoader := fun _ => Except.ok goodLoader }

/-- An environment whose loader raises `SystemExit` — a `BaseException`
descendant that is not an instance of `Exception` (as raised by a package
whose module-level code calls `sys.exit(0)` during import). -/
def sysExitEnv : Env :=
  { importLanguageLoader := fun _ =>
      Except.ok
        { load_language_from_source := fun _ _ =>
            Except.error { msg := "0", typeName := "SystemExit", isException := false } } }

/-- An environment whose loader raises a `ValueError` carrying an empty
message, as `raise ValueError()` does. -/
def emptyMsgEnv : Env :=
  { importLanguageLoader := fun _ =>
      Except.ok
        { load_language_from_source := fun _ _ =>
            Except.error { msg := "", typeName := "ValueError", isException := true } } }

/-- An environment whose loader raises a `ValueError` with a message, as a
malformed package produces. -/
def badGrammarEnv : Env :=
  { importLanguageLoader := fun _ =>
      Except.ok
        { load_language_from_source := fun _ _ =>
            Except.error
              { msg := "invalid grammar file", typeName := "ValueError",
                isException := true } } }

/-- An environment whose loader raises a `FileNotFoundError`, as a
nonexistent `repo_path` produces. -/
def missingDirEnv : Env :=
  { importLanguageLoader := fun _ =>
      Except.ok
        { load_language_from_source := fun _ _ =>
            Except.error
              { msg := "No such file or directory", typeName := "FileNotFoundError",
                isException := true } } }

/-- An environment in which the `from yaduha.loader import LanguageLoader`
statement itself raises `ModuleNotFoundError`. -/
def noModuleEnv : Env :=
  { importLanguageLoader := fun _ =>
      Except.error
        { msg := "No module named yaduha", typeName := "ModuleNotFoundError",
          isException := true } }

/-- An environment whose loader returns a language with a malformed second
sentence type: the entry lacks a `__name__` attribute. -/
def badTypesEnv : Env :=
  { importLanguageLoader := fun _ =>
      Except.ok
        { load_language_from_source := fun _ _ =>
            Except.ok
              { code := "num", name := "Numeric Language",
                sentence_types := [⟨some "Declarative"⟩, ⟨none⟩] } } }

/-- An environment whose loader raises `SystemExit` with exit code 2
during the load (as a package whose code calls `sys.exit(2)` produces);
`SystemExit` does not derive from `Exception`. -/
def exitingLoaderEnv : Env :=
  { importLanguageLoader := fun _ =>
      Except.ok
        { load_language_from_source := fun _ _ =>
            Except.error { msg := "2", typeName := "SystemExit", isException := false } } }

/-- An environment whose loader raises `KeyboardInterrupt`, which does not
derive from `Exception`. -/
def keyboardEnv : Env :=
  { importLanguageLoader := fun _ =>
      Except.ok
        { load_language_from_source := fun _ _ =>
            Except.error
              { msg := "", typeName := "KeyboardInterrupt", isException := false } } }


/-! A JSON parser for the fragment the serializer emits, used to state
that the output is valid, parseable JSON.  Parsing is fuel-bounded;
`PS`, `PV` and `RT` below quantify over all sufficient fuels. -/

/-- Value of a hexadecimal digit character. -/
def hexVal (c : Char) : Option Nat :=
  if 48 ≤ c.toNat ∧ c.toNat ≤ 57 then some (c.toNat - 48)
  else if 97 ≤ c.toNat ∧ c.toNat ≤ 102 then some (c.toNat - 87)
  else if 65 ≤ c.toNat ∧ c.toNat ≤ 70 then some (c.toNat - 55)
  else none

/-- Drop leading spaces (the only inter-token whitespace the serializer
emits). -/
def skipSpaces : List Char → List Char
  | [] => []
  | ' ' :: cs => skipSpaces cs
  | cs => cs

/-- Decode the low surrogate escape expected right after a high surrogate
with code unit `n`, recombining the pair into one character. -/
def decodeLowSurrogate (n : Nat) : List Char → Option (Char × List Char)
  | '\\' :: 'u' :: k1 :: k2 :: k3 :: k4 :: rest4 =>
      (match hexVal k1, hexVal k2, hexVal k3, hexVal k4 with
      | some a2, some b2, some c3, some d2 =>
        let m := 4096 * a2 + 256 * b2 + 16 * c3 + d2
        if 56320 ≤ m ∧ m < 57344 then
          some (Char.ofNat (65536 + 1024 * (n - 55296) + (m - 56320)), rest4)
        else none
      | _, _, _, _ => none)
  | _ => none

/-- Parse a \u escape given the continuation `ps` for the remaining string
body: four hex digits, then either a plain scalar or a surrogate pair. -/
def parseUEscape (ps : List Char → Option (List Char × List Char)) :
    List Char → Option (List Char × List Char)
  | h1 :: h2 :: h3 :: h4 :: rest3 =>
      (match hexVal h1, hexVal h2, hexVal h3, hexVal h4 with
      | some a, some b, some c2, some d =>
        let n := 4096 * a + 256 * b + 16 * c2 + d
        if 55296 ≤ n ∧ n < 56320 then
          match decodeLowSurrogate n rest3 with
          | some (ch, rest4) => (ps rest4).map (fun p => (ch :: p.1, p.2))
          | none => none
        else if 56320 ≤ n ∧ n < 57344 then none
        else (ps rest3).map (fun p => (Char.ofNat n :: p.1, p.2))
      | _, _, _, _ => none)
  | _ => none

/-- Parse what follows a backslash in a JSON string literal, with `ps` the
continuation for the remaining string body. -/
def parseEscape (ps : List Char → Option (List Char × List Char)) :
    List Char → Option (List Char × List Char)
  | 'u' :: rest2 => parseUEscape ps rest2
  | '"' :: rest2 => (ps rest2).map (fun p => ('"' :: p.1, p.2))
  | '\\' :: rest2 => (ps rest2).map (fun p => ('\\' :: p.1, p.2))
  | '/' :: rest2 => (ps rest2).map (fun p => ('/' :: p.1, p.2))
  | 'b' :: rest2 => (ps rest2).map (fun p => (Char.ofNat 8 :: p.1, p.2))
  | 'f' :: rest2 => (ps rest2).map (fun p => (Char.ofNat 12 :: p.1, p.2))
  | 'n' :: rest2 => (ps rest2).map (fun p => (Char.ofNat 10 :: p.1, p.2))
  | 'r' :: rest2 => (ps rest2).map (fun p => (Char.ofNat 13 :: p.1, p.2))
  | 't' :: rest2 => (ps rest2).map (fun p => (Char.ofNat 9 :: p.1, p.2))
  | _ => none

/-- Parse the body of a JSON string literal after its opening quote:
yields the decoded characters and the input following the closing quote.
The fuel argument bounds the number of parsing steps. -/
def parseStringBody : Nat → List Char → Option (List Char × List Char)
  | 0, _ => none
  | _+1, [] => none
  | _+1, '"' :: rest => some ([], rest)
  | fuel+1, '\\' :: rest => parseEscape (parseStringBody fuel) rest
  | fuel+1, c :: rest =>
      if c.toNat < 32 then none
      else (parseStringBody fuel rest).map (fun p => (c :: p.1, p.2))

/-- Expect the tail of the keyword `true` after its initial letter. -/
def parseTrueTail : List Char → Option (List Char)
  | 'r' :: 'u' :: 'e' :: rest => some rest
  | _ => none

/-- Expect the tail of the keyword `false` after its initial letter. -/
def parseFalseTail : List Char → Option (List Char)
  | 'a' :: 'l' :: 's' :: 'e' :: rest => some rest
  | _ => none

/-- After an opening bracket (and space skipping): an empty array, or the
elements parsed by the continuation `pe`. -/
def parseArrayStart (pe : List Char → Option (List JValue × List Char)) :
    List Char → Option (JValue × List Char)
  | ']' :: rest2 => some (JValue.jArr [], rest2)
  | cs2 => (pe cs2).map (fun p => (JValue.jArr p.1, p.2))

/-- After an opening brace (and space skipping): an empty object, or the
entries parsed by the continuation `pf`. -/
def parseObjectStart (pf : List Char → Option (List (String × JValue) × List Char)) :
    List Char → Option (JValue × List Char)
  | '\x7d' :: rest2 => some (JValue.jObj [], rest2)
  | cs2 => (pf cs2).map (fun p => (JValue.jObj p.1, p.2))

/-- After one array element `v`: a comma and further elements via the
continuation `pe`, or the closing bracket. -/
def parseElemsRest (pe : List Char → Option (List JValue × List Char))
    (v : JValue) : List Char → Option (List JValue × List Char)
  | ',' :: rest2 => (pe (skipSpaces rest2)).map (fun p => (v :: p.1, p.2))
  | ']' :: rest2 => some ([v], rest2)
  | _ => none

/-- Parse the elements of a non-empty JSON array up to and including the
closing bracket, with `pv` the parser for one value. -/
def parseElems (pv : List Char → Option (JValue × List Char)) :
    Nat → List Char → Option (List JValue × List Char)
  | 0, _ => none
  | fuel+1, cs =>
    match pv cs with
    | none => none
    | some (v, rest) => parseElemsRest (parseElems pv fuel) v (skipSpaces rest)

/-- After one object entry: a comma and further entries via the
continuation `pf`, or the closing brace. -/
def parseFieldsRest (pf : List Char → Option (List (String × JValue) × List Char))
    (key : String) (v : JValue) :
    List Char → Option (List (String × JValue) × List Char)
  | ',' :: rest5 => (pf (skipSpaces rest5)).map (fun p => ((key, v) :: p.1, p.2))
  | '\x7d' :: rest5 => some ([(key, v)], rest5)
  | _ => none

/-- After an entry's key: the colon, the entry's value via `pv`, then the
rest of the entries via the continuation `pf`. -/
def parseFieldsColon (pv : List Char → Option (JValue × List Char))
    (pf : List Char → Option (List (String × JValue) × List Char))
    (key : String) : List Char → Option (List (String × JValue) × List Char)
  | ':' :: rest3 =>
      (match pv (skipSpaces rest3) with
      | none => none
      | some (v, rest4) => parseFieldsRest pf key v (skipSpaces rest4))
  | _ => none

/-- Parse the entries of a non-empty JSON object up to and including the
closing brace, with `pv` the parser for one value and `psb` the parser for
a string-literal body. -/
def parseFields (pv : List Char → Option (JValue × List Char))
    (psb : List Char → Option (List Char × List Char)) :
    Nat → List Char → Option (List (String × JValue) × List Char)
  | 0, _ => none
  | fuel+1, '"' :: rest =>
      (match psb rest with
      | none => none
      | some (key, rest2) =>
          parseFieldsColon pv (parseFields pv psb fuel) (String.mk key)
            (skipSpaces rest2))
  | _+1, _ => none

/-- Parse one JSON value of the fragment the serializer emits. -/
def parseValue : Nat → List Char → Option (JValue × List Char)
  | 0, _ => none
  | _+1, 't' :: rest => (parseTrueTail rest).map (fun r => (JValue.jBool true, r))
  | _+1, 'f' :: rest => (parseFalseTail rest).map (fun r => (JValue.jBool false, r))
  | fuel+1, '"' :: rest =>
      (parseStringBody fuel rest).map (fun p => (JValue.jStr (String.mk p.1), p.2))
  | fuel+1, '[' :: rest =>
      parseArrayStart (parseElems (parseValue fuel) fuel) (skipSpaces rest)
  | fuel+1, '\x7b' :: rest =>
      parseObjectStart (parseFields (parseValue fuel) (parseStringBody fuel) fuel)
        (skipSpaces rest)
  | _+1, _ => none

/-- Parse a complete JSON document: one value consuming the whole input. -/
def parseJson (fuel : Nat) (s : String) : Option JValue :=
  match parseValue fuel s.data with
  | some (v, []) => some v
  | _ => none

/-- The string body starting at `cs` parses to `content` leaving `rest`,
for every sufficient fuel. -/
def PS (cs content rest : List Char) : Prop :=
  ∃ N, ∀ f, N ≤ f → parseStringBody f cs = some (content, rest)

/-- One JSON value at `cs` parses to `v` leaving `rest`, for every
sufficient fuel. -/
def PV (cs : List Char) (v : JValue) (rest : List Char) : Prop :=
  ∃ N, ∀ f, N ≤ f → parseValue f cs = some (v, rest)

/-- Round-trip property of a value: its serialization, followed by
anything, parses back to exactly the value. -/
def RT (v : JValue) : Prop :=
  ∀ rest, PV ((dumps v).data ++ rest) v rest

/-! Helper lemmas characterizing the embedding. -/

/-- The second component of the result is always the prepended search path. -/
theorem validate_language_snd (env : Env) (repo_path : String) (path0 : List String) :
    (validate_language env repo_path path0).2 = repo_path :: path0 := rfl

/-- When the try body succeeds, the function returns its dict serialized. -/
theorem validate_language_fst_of_ok (env : Env) (repo_path : String)
    (path0 : List String) (v : JValue)
    (h : tryBody env repo_path (repo_path :: path0) = Except.ok v) :
    (validate_language env repo_path path0).1 = Except.ok (dumps v) := by
  simp [validate_language, h]

/-- When the try body raises an `Exception` instance, the handler converts
it to the failure dict. -/
theorem validate_language_fst_of_caught (env : Env) (repo_path : String)
    (path0 : List String) (e : PyExc)
    (h : tryBody env repo_path (repo_path :: path0) = Except.error e)
    (he : e.isException = true) :
    (validate_language env repo_path path0).1 = Except.ok (dumps (failureResult e)) := by
  simp [validate_language, h, he]

/-- When the try body raises a non-`Exception` object, it propagates. -/
theorem validate_language_fst_of_uncaught (env : Env) (repo_path : String)
    (path0 : List String) (e : PyExc)
    (h : tryBody env repo_path (repo_path :: path0) = Except.error e)
    (he : e.isException = false) :
    (validate_language env repo_path path0).1 = Except.error e := by
  simp [validate_language, h, he]

/-- A failing import makes the try body raise that failure. -/
theorem tryBody_of_import_error (env : Env) (repo_path : String)
    (sysPath : List String) (e : PyExc)
    (h : env.importLanguageLoader sysPath = Except.error e) :
    tryBody env repo_path sysPath = Except.error e := by
  simp [tryBody, h]

/-- A failing load makes the try body raise that failure. -/
theorem tryBody_of_load_error (env : Env) (repo_path : String)
    (sysPath : List String) (loader : LanguageLoader) (e : PyExc)
    (hi : env.importLanguageLoader sysPath = Except.ok loader)
    (hl : loader.load_language_from_source sysPath repo_path = Except.error e) :
    tryBody env repo_path sysPath = Except.error e := by
  simp [tryBody, hi, hl]

/-- A failing field extraction makes the try body raise that failure. -/
theorem tryBody_of_extract_error (env : Env) (repo_path : String)
    (sysPath : List String) (loader : LanguageLoader) (language : Language) (e : PyExc)
    (hi : env.importLanguageLoader sysPath = Except.ok loader)
    (hl : loader.load_language_from_source sysPath repo_path = Except.ok language)
    (hx : extractNames language.sentence_types = Except.error e) :
    tryBody env repo_path sysPath = Except.error e := by
  simp [tryBody, hi, hl, hx]

/-- When all three steps succeed, the try body yields the success dict. -/
theorem tryBody_of_ok (env : Env) (repo_path : String)
    (sysPath : List String) (loader : LanguageLoader) (language : Language)
    (names : List String)
    (hi : env.importLanguageLoader sysPath = Except.ok loader)
    (hl : loader.load_language_from_source sysPath repo_path = Except.ok language)
    (hx : extractNames language.sentence_types = Except.ok names) :
    tryBody env repo_path sysPath = Except.ok (successResult language names) := by
  simp [tryBody, hi, hl, hx]

/-- Any value the try body returns is a success dict. -/
theorem tryBody_ok_inv (env : Env) (repo_path : String)
    (sysPath : List String) (v : JValue)
    (h : tryBody env repo_path sysPath = Except.ok v) :
    ∃ (language : Language) (names : List String), v = successResult language names := by
  cases hi : env.importLanguageLoader sysPath with
  | error e0 =>
      exact Except.noConfusion
        ((tryBody_of_import_error env repo_path sysPath e0 hi).symm.trans h)
  | ok loader =>
      cases hl : loader.load_language_from_source sysPath repo_path with
      | error e0 =>
          exact Except.noConfusion
            ((tryBody_of_load_error env repo_path sysPath loader e0 hi hl).symm.trans h)
      | ok language =>
          cases hx : extractNames language.sentence_types with
          | error e0 =>
              exact Except.noConfusion
                ((tryBody_of_extract_error env repo_path sysPath loader language e0
                  hi hl hx).symm.trans h)
          | ok names =>
              have hv :=
                (tryBody_of_ok env repo_path sysPath loader language names
                  hi hl hx).symm.trans h
              exact ⟨language, names, ((Except.ok.injEq _ _).mp hv).symm⟩

/-- Any failure the try body raises comes from the import, the load, or the
field extraction. -/
theorem tryBody_error_inv (env : Env) (repo_path : String)
    (sysPath : List String) (e : PyExc)
    (h : tryBody env repo_path sysPath = Except.error e) :
    env.importLanguageLoader sysPath = Except.error e ∨
    (∃ loader, env.importLanguageLoader sysPath = Except.ok loader ∧
       loader.load_language_from_source sysPath repo_path = Except.error e) ∨
    (∃ loader language, env.importLanguageLoader sysPath = Except.ok loader ∧
       loader.load_language_from_source sysPath repo_path = Except.ok language ∧
       extractNames language.sentence_types = Except.error e) := by
  cases hi : env.importLanguageLoader sysPath with
  | error e0 =>
      obtain rfl := (Except.error.injEq _ _).mp
        ((tryBody_of_import_error env repo_path sysPath e0 hi).symm.trans h)
      exact Or.inl rfl
  | ok loader =>
      cases hl : loader.load_language_from_source sysPath repo_path with
      | error e0 =>
          obtain rfl := (Except.error.injEq _ _).mp
            ((tryBody_of_load_error env repo_path sysPath loader e0 hi hl).symm.trans h)
          exact Or.inr (Or.inl ⟨loader, rfl, hl⟩)
      | ok language =>
          cases hx : extractNames language.sentence_types with
          | error e0 =>
              obtain rfl := (Except.error.injEq _ _).mp
                ((tryBody_of_extract_error env repo_path sysPath loader language e0
                  hi hl hx).symm.trans h)
              exact Or.inr (Or.inr ⟨loader, language, rfl, hl, hx⟩)
          | ok names =>
              exact Except.noConfusion
                ((tryBody_of_ok env repo_path sysPath loader language names
                  hi hl hx).symm.trans h)

/-- The only failure field extraction can raise is the `AttributeError`
for a missing `__name__`. -/
theorem extractNames_error_inv (l : List SentenceType) (e : PyExc)
    (h : extractNames l = Except.error e) : e = attrNameError := by
  induction l with
  | nil => exact Except.noConfusion h
  | cons st rest ih =>
      cases hn : st.__name__ with
      | none =>
          have hcons : extractNames (st :: rest) = Except.error attrNameError := by
            simp [extractNames, getDunderName, hn]
          exact ((Except.error.injEq _ _).mp (hcons.symm.trans h)).symm
      | some n =>
          cases hx : extractNames rest with
          | error e0 =>
              have hcons : extractNames (st :: rest) = Except.error e0 := by
                simp [extractNames, getDunderName, hn, hx]
              obtain rfl := (Except.error.injEq _ _).mp (hcons.symm.trans h)
              exact ih hx
          | ok ns =>
              have hcons : extractNames (st :: rest) = Except.ok (n :: ns) := by
                simp [extractNames, getDunderName, hn, hx]
              exact Except.noConfusion (hcons.symm.trans h)

/-- When every sentence type carries a name, extraction succeeds with the
names in order. -/
theorem extractNames_of_names (l : List SentenceType) (names : List String)
    (h : l.map SentenceType.__name__ = names.map some) :
    extractNames l = Except.ok names := by
  induction l generalizing names with
  | nil =>
      cases names with
      | nil => rfl
      | cons n ns => simp at h
  | cons st rest ih =>
      cases names with
      | nil => simp at h
      | cons n ns =>
          simp only [List.map_cons, List.cons.injEq] at h
          simp [extractNames, getDunderName, h.1, ih ns h.2]

/-- When some sentence type lacks a `__name__`, extraction raises the
`AttributeError`. -/
theorem extractNames_of_missing (l : List SentenceType) (st : SentenceType)
    (hm : st ∈ l) (hn : st.__name__ = none) :
    extractNames l = Except.error attrNameError := by
  induction l with
  | nil => cases hm
  | cons hd rest ih =>
      cases hh : hd.__name__ with
      | none => simp [extractNames, getDunderName, hh]
      | some n =>
          rcases List.mem_cons.mp hm with rfl | hm2
          · rw [hh] at hn; exact Option.noConfusion hn
          · simp [extractNames, getDunderName, hh, ih hm2]

/-- The success dict is a flat object. -/
theorem successResult_flat (language : Language) (names : List String) :
    isFlatObj (successResult language names) := by
  simp [isFlatObj, successResult, isFlatMember]

/-- The failure dict is a flat object. -/
theorem failureResult_flat (e : PyExc) : isFlatObj (failureResult e) := by
  simp [isFlatObj, failureResult, isFlatMember]

/-- The success dict satisfies the Success schema. -/
theorem successResult_schema (language : Language) (names : List String) :
    isSuccessSchema (successResult language names) :=
  ⟨language.code, language.name, names, rfl⟩

/-- The failure dict satisfies the Failure schema. -/
theorem failureResult_schema (e : PyExc) : isFailureSchema (failureResult e) :=
  ⟨e.msg, e.typeName, rfl⟩

/-- No value satisfies both schemas. -/
theorem not_success_and_failure (v : JValue) (hs : isSuccessSchema v)
    (hf : isFailureSchema v) : False := by
  rcases hs with ⟨c, n, ts, rfl⟩
  rcases hf with ⟨err, et, heq⟩
  simp at heq

/-! Lemmas establishing the parse round-trip for serialized values. -/

theorem hexVal_hexDigitChar : ∀ m : Nat, m < 16 → hexVal (hexDigitChar m) = some m := by
  decide

theorem char_valid_nat (c : Char) :
    c.toNat < 55296 ∨ (57343 < c.toNat ∧ c.toNat < 1114112) := c.valid

theorem parseStringBody_quote (fuel : Nat) (rest : List Char) :
    parseStringBody (fuel+1) ('"' :: rest) = some ([], rest) := by
  simp [parseStringBody]

theorem parseStringBody_backslash (fuel : Nat) (rest : List Char) :
    parseStringBody (fuel+1) ('\\' :: rest) =
      parseEscape (parseStringBody fuel) rest := by
  simp [parseStringBody]

theorem parseStringBody_rawchar (fuel : Nat) (c : Char) (tail : List Char)
    (h1 : c ≠ '"') (h2 : c ≠ '\\') (h3 : ¬ c.toNat < 32) :
    parseStringBody (fuel+1) (c :: tail) =
      (parseStringBody fuel tail).map (fun p => (c :: p.1, p.2)) := by
  simp [parseStringBody, h1, h2, h3]

theorem parseUEscape_bmp (ps : List Char → Option (List Char × List Char))
    (n : Nat) (hn : n < 65536) (hs : n < 55296 ∨ 57344 ≤ n) (tail : List Char) :
    parseUEscape ps (hexDigitChar (n / 4096 % 16) :: hexDigitChar (n / 256 % 16) ::
        hexDigitChar (n / 16 % 16) :: hexDigitChar (n % 16) :: tail) =
      (ps tail).map (fun p => (Char.ofNat n :: p.1, p.2)) := by
  have e1 : hexVal (hexDigitChar (n / 4096 % 16)) = some (n / 4096 % 16) :=
    hexVal_hexDigitChar _ (by omega)
  have e2 : hexVal (hexDigitChar (n / 256 % 16)) = some (n / 256 % 16) :=
    hexVal_hexDigitChar _ (by omega)
  have e3 : hexVal (hexDigitChar (n / 16 % 16)) = some (n / 16 % 16) :=
    hexVal_hexDigitChar _ (by omega)
  have e4 : hexVal (hexDigitChar (n % 16)) = some (n % 16) :=
    hexVal_hexDigitChar _ (by omega)
  have hrec : 4096 * (n / 4096 % 16) + 256 * (n / 256 % 16) +
      16 * (n / 16 % 16) + n % 16 = n := by omega
  have hs1 : ¬(55296 ≤ n ∧ n < 56320) := by omega
  have hs2 : ¬(56320 ≤ n ∧ n < 57344) := by omega
  simp only [parseUEscape, e1, e2, e3, e4]
  simp only [hrec]
  rw [if_neg hs1, if_neg hs2]

theorem decodeLowSurrogate_eval (n : Nat) (m : Nat) (hm56 : 56320 ≤ m)
    (hm57 : m < 57344) (tail : List Char) :
    decodeLowSurrogate n ('\\' :: 'u' :: hexDigitChar (m / 4096 % 16) ::
        hexDigitChar (m / 256 % 16) :: hexDigitChar (m / 16 % 16) ::
        hexDigitChar (m % 16) :: tail) =
      some (Char.ofNat (65536 + 1024 * (n - 55296) + (m - 56320)), tail) := by
  have e1 : hexVal (hexDigitChar (m / 4096 % 16)) = some (m / 4096 % 16) :=
    hexVal_hexDigitChar _ (by omega)
  have e2 : hexVal (hexDigitChar (m / 256 % 16)) = some (m / 256 % 16) :=
    hexVal_hexDigitChar _ (by omega)
  have e3 : hexVal (hexDigitChar (m / 16 % 16)) = some (m / 16 % 16) :=
    hexVal_hexDigitChar _ (by omega)
  have e4 : hexVal (hexDigitChar (m % 16)) = some (m % 16) :=
    hexVal_hexDigitChar _ (by omega)
  have hrec : 4096 * (m / 4096 % 16) + 256 * (m / 256 % 16) +
      16 * (m / 16 % 16) + m % 16 = m := by omega
  have hcond : 56320 ≤ m ∧ m < 57344 := ⟨hm56, hm57⟩
  simp only [decodeLowSurrogate, e1, e2, e3, e4]
  simp only [hrec]
  rw [if_pos hcond]

theorem parseUEscape_pairGen (ps : List Char → Option (List Char × List Char))
    (n1 m1 : Nat) (hn1 : 55296 ≤ n1) (hn2 : n1 < 56320)
    (hm1 : 56320 ≤ m1) (hm2 : m1 < 57344) (tail : List Char) :
    parseUEscape ps (hexDigitChar (n1 / 4096 % 16) :: hexDigitChar (n1 / 256 % 16) ::
        hexDigitChar (n1 / 16 % 16) :: hexDigitChar (n1 % 16) :: '\\' :: 'u' ::
        hexDigitChar (m1 / 4096 % 16) :: hexDigitChar (m1 / 256 % 16) ::
        hexDigitChar (m1 / 16 % 16) :: hexDigitChar (m1 % 16) :: tail) =
      (ps tail).map (fun p =>
        (Char.ofNat (65536 + 1024 * (n1 - 55296) + (m1 - 56320)) :: p.1, p.2)) := by
  have e1 : hexVal (hexDigitChar (n1 / 4096 % 16)) = some (n1 / 4096 % 16) :=
    hexVal_hexDigitChar _ (by omega)
  have e2 : hexVal (hexDigitChar (n1 / 256 % 16)) = some (n1 / 256 % 16) :=
    hexVal_hexDigitChar _ (by omega)
  have e3 : hexVal (hexDigitChar (n1 / 16 % 16)) = some (n1 / 16 % 16) :=
    hexVal_hexDigitChar _ (by omega)
  have e4 : hexVal (hexDigitChar (n1 % 16)) = some (n1 % 16) :=
    hexVal_hexDigitChar _ (by omega)
  have hrec1 : 4096 * (n1 / 4096 % 16) + 256 * (n1 / 256 % 16) +
      16 * (n1 / 16 % 16) + n1 % 16 = n1 := by omega
  have hcond1 : 55296 ≤ n1 ∧ n1 < 56320 := ⟨hn1, hn2⟩
  have hdec := decodeLowSurrogate_eval n1 m1 hm1 hm2 tail
  simp only [parseUEscape, e1, e2, e3, e4]
  simp only [hrec1]
  rw [if_pos hcond1]
  rw [hdec]

/-- A closing quote parses as the empty string body. -/
theorem PS_quote (rest : List Char) : PS ('"' :: rest) [] rest := by
  refine ⟨1, fun f hf => ?_⟩
  obtain ⟨g, rfl⟩ : ∃ g, f = g + 1 := ⟨f - 1, by omega⟩
  exact parseStringBody_quote g rest

set_option maxHeartbeats 4000000 in
/-- Prepending the escape of one character preserves parsing. -/
theorem PS_cons (c : Char) (l rest tail : List Char)
    (h : PS tail l rest) : PS ((escapeChar c).data ++ tail) (c :: l) rest := by
  obtain ⟨N, hN⟩ := h
  refine ⟨N + 1, fun f hf => ?_⟩
  obtain ⟨g, rfl⟩ : ∃ g, f = g + 1 := ⟨f - 1, by omega⟩
  have htail := hN g (by omega)
  by_cases h1 : c = '"'
  · subst h1
    have hdata : (escapeChar '"').data = ['\\', '"'] := rfl
    rw [hdata]
    simp only [List.cons_append, List.nil_append]
    rw [parseStringBody_backslash]
    simp [parseEscape, htail]
  by_cases h2 : c = '\\'
  · subst h2
    have hdata : (escapeChar '\\').data = ['\\', '\\'] := rfl
    rw [hdata]
    simp only [List.cons_append, List.nil_append]
    rw [parseStringBody_backslash]
    simp [parseEscape, htail]
  by_cases h3 : c = Char.ofNat 8
  · subst h3
    have hdata : (escapeChar (Char.ofNat 8)).data = ['\\', 'b'] := rfl
    rw [hdata]
    simp only [List.cons_append, List.nil_append]
    rw [parseStringBody_backslash]
    simp [parseEscape, htail]
  by_cases h4 : c = Char.ofNat 9
  · subst h4
    have hdata : (escapeChar (Char.ofNat 9)).data = ['\\', 't'] := rfl
    rw [hdata]
    simp only [List.cons_append, List.nil_append]
    rw [parseStringBody_backslash]
    simp [parseEscape, htail]
  by_cases h5 : c = Char.ofNat 10
  · subst h5
    have hdata : (escapeChar (Char.ofNat 10)).data = ['\\', 'n'] := rfl
    rw [hdata]
    simp only [List.cons_append, List.nil_append]
    rw [parseStringBody_backslash]
    simp [parseEscape, htail]
  by_cases h6 : c = Char.ofNat 12
  · subst h6
    have hdata : (escapeChar (Char.ofNat 12)).data = ['\\', 'f'] := rfl
    rw [hdata]
    simp only [List.cons_append, List.nil_append]
    rw [parseStringBody_backslash]
    simp [parseEscape, htail]
  by_cases h7 : c = Char.ofNat 13
  · subst h7
    have hdata : (escapeChar (Char.ofNat 13)).data = ['\\', 'r'] := rfl
    rw [hdata]
    simp only [List.cons_append, List.nil_append]
    rw [parseStringBody_backslash]
    simp [parseEscape, htail]
  by_cases h8 : 32 ≤ c.toNat ∧ c.toNat ≤ 126
  · have hesc : escapeChar c = String.mk [c] := by
      simp only [escapeChar]
      rw [if_neg h1, if_neg h2, if_neg h3, if_neg h4, if_neg h5, if_neg h6,
        if_neg h7, if_pos h8]
    have hdata : (escapeChar c).data = [c] := by rw [hesc]
    rw [hdata]
    simp only [List.cons_append, List.nil_append]
    rw [parseStringBody_rawchar g c tail h1 h2 (by omega)]
    rw [htail]
    rfl
  by_cases h9 : c.toNat < 65536
  · have hesc : escapeChar c = "\\u" ++ toHex4 c.toNat := by
      simp only [escapeChar]
      rw [if_neg h1, if_neg h2, if_neg h3, if_neg h4, if_neg h5, if_neg h6,
        if_neg h7, if_neg h8, if_pos h9]
    have hdata : (escapeChar c).data = '\\' :: 'u' ::
        hexDigitChar (c.toNat / 4096 % 16) :: hexDigitChar (c.toNat / 256 % 16) ::
        hexDigitChar (c.toNat / 16 % 16) :: hexDigitChar (c.toNat % 16) :: [] := by
      rw [hesc]; rfl
    rw [hdata]
    simp only [List.cons_append, List.nil_append]
    rw [parseStringBody_backslash]
    have hstep : parseEscape (parseStringBody g) ('u' ::
        hexDigitChar (c.toNat / 4096 % 16) :: hexDigitChar (c.toNat / 256 % 16) ::
        hexDigitChar (c.toNat / 16 % 16) :: hexDigitChar (c.toNat % 16) :: tail) =
        parseUEscape (parseStringBody g)
          (hexDigitChar (c.toNat / 4096 % 16) :: hexDigitChar (c.toNat / 256 % 16) ::
           hexDigitChar (c.toNat / 16 % 16) :: hexDigitChar (c.toNat % 16) :: tail) := by
      simp [parseEscape]
    rw [hstep]
    have hs : c.toNat < 55296 ∨ 57344 ≤ c.toNat := by
      rcases char_valid_nat c with hv | hv
      · exact Or.inl hv
      · right; omega
    rw [parseUEscape_bmp (parseStringBody g) c.toNat h9 hs tail]
    rw [htail]
    simp
  · have hge : 65536 ≤ c.toNat := by omega
    have hlt : c.toNat < 1114112 := by
      rcases char_valid_nat c with hv | hv <;> omega
    have hesc : escapeChar c =
        "\\u" ++ toHex4 (55296 + (c.toNat - 65536) / 1024) ++
        "\\u" ++ toHex4 (56320 + (c.toNat - 65536) % 1024) := by
      simp only [escapeChar]
      rw [if_neg h1, if_neg h2, if_neg h3, if_neg h4, if_neg h5, if_neg h6,
        if_neg h7, if_neg h8, if_neg h9]
    have hdata : (escapeChar c).data = '\\' :: 'u' ::
        hexDigitChar ((55296 + (c.toNat - 65536) / 1024) / 4096 % 16) ::
        hexDigitChar ((55296 + (c.toNat - 65536) / 1024) / 256 % 16) ::
        hexDigitChar ((55296 + (c.toNat - 65536) / 1024) / 16 % 16) ::
        hexDigitChar ((55296 + (c.toNat - 65536) / 1024) % 16) :: '\\' :: 'u' ::
        hexDigitChar ((56320 + (c.toNat - 65536) % 1024) / 4096 % 16) ::
        hexDigitChar ((56320 + (c.toNat - 65536) % 1024) / 256 % 16) ::
        hexDigitChar ((56320 + (c.toNat - 65536) % 1024) / 16 % 16) ::
        hexDigitChar ((56320 + (c.toNat - 65536) % 1024) % 16) :: [] := by
      rw [hesc]; rfl
    rw [hdata]
    simp only [List.cons_append, List.nil_append]
    rw [parseStringBody_backslash]
    have hstep : parseEscape (parseStringBody g) ('u' ::
        hexDigitChar ((55296 + (c.toNat - 65536) / 1024) / 4096 % 16) ::
        hexDigitChar ((55296 + (c.toNat - 65536) / 1024) / 256 % 16) ::
        hexDigitChar ((55296 + (c.toNat - 65536) / 1024) / 16 % 16) ::
        hexDigitChar ((55296 + (c.toNat - 65536) / 1024) % 16) :: '\\' :: 'u' ::
        hexDigitChar ((56320 + (c.toNat - 65536) % 1024) / 4096 % 16) ::
        hexDigitChar ((56320 + (c.toNat - 65536) % 1024) / 256 % 16) ::
        hexDigitChar ((56320 + (c.toNat - 65536) % 1024) / 16 % 16) ::
        hexDigitChar ((56320 + (c.toNat - 65536) % 1024) % 16) :: tail) =
        parseUEscape (parseStringBody g)
          (hexDigitChar ((55296 + (c.toNat - 65536) / 1024) / 4096 % 16) ::
           hexDigitChar ((55296 + (c.toNat - 65536) / 1024) / 256 % 16) ::
           hexDigitChar ((55296 + (c.toNat - 65536) / 1024) / 16 % 16) ::
           hexDigitChar ((55296 + (c.toNat - 65536) / 1024) % 16) :: '\\' :: 'u' ::
           hexDigitChar ((56320 + (c.toNat - 65536) % 1024) / 4096 % 16) ::
           hexDigitChar ((56320 + (c.toNat - 65536) % 1024) / 256 % 16) ::
           hexDigitChar ((56320 + (c.toNat - 65536) % 1024) / 16 % 16) ::
           hexDigitChar ((56320 + (c.toNat - 65536) % 1024) % 16) :: tail) := by
      simp [parseEscape]
    rw [hstep]
    rw [parseUEscape_pairGen (parseStringBody g)
      (55296 + (c.toNat - 65536) / 1024) (56320 + (c.toNat - 65536) % 1024)
      (by omega) (by omega) (by omega) (by omega) tail]
    rw [htail]
    have harg : 65536 + 1024 * (55296 + (c.toNat - 65536) / 1024 - 55296) +
        (56320 + (c.toNat - 65536) % 1024 - 56320) = c.toNat := by omega
    simp only [harg, Char.ofNat_toNat]
    rfl

/-- The escaping of any character list parses back to exactly that list. -/
theorem PS_escapeList (l : List Char) (rest : List Char) :
    PS (escapeList l ++ '"' :: rest) l rest := by
  induction l with
  | nil => simpa [escapeList] using PS_quote rest
  | cons c l ih =>
      have hc := PS_cons c l rest (escapeList l ++ '"' :: rest) ih
      simpa [escapeList, List.append_assoc] using hc

theorem skipSpaces_space (cs : List Char) : skipSpaces (' ' :: cs) = skipSpaces cs := by
  simp [skipSpaces]

theorem skipSpaces_nonspace (c : Char) (cs : List Char) (h : c ≠ ' ') :
    skipSpaces (c :: cs) = c :: cs := by
  simp [skipSpaces, h]

theorem parseValue_true (fuel : Nat) (rest : List Char) :
    parseValue (fuel+1) ('t' :: 'r' :: 'u' :: 'e' :: rest) =
      some (JValue.jBool true, rest) := by
  simp [parseValue, parseTrueTail]

theorem parseValue_false (fuel : Nat) (rest : List Char) :
    parseValue (fuel+1) ('f' :: 'a' :: 'l' :: 's' :: 'e' :: rest) =
      some (JValue.jBool false, rest) := by
  simp [parseValue, parseFalseTail]

theorem parseValue_quote (fuel : Nat) (rest : List Char) :
    parseValue (fuel+1) ('"' :: rest) =
      (parseStringBody fuel rest).map (fun p => (JValue.jStr (String.mk p.1), p.2)) := by
  simp [parseValue]

theorem parseValue_bracket (fuel : Nat) (rest : List Char) :
    parseValue (fuel+1) ('[' :: rest) =
      parseArrayStart (parseElems (parseValue fuel) fuel) (skipSpaces rest) := by
  simp [parseValue]

theorem parseValue_brace (fuel : Nat) (rest : List Char) :
    parseValue (fuel+1) ('\x7b' :: rest) =
      parseObjectStart (parseFields (parseValue fuel) (parseStringBody fuel) fuel)
        (skipSpaces rest) := by
  simp [parseValue]

theorem parseArrayStart_close (pe : List Char → Option (List JValue × List Char))
    (rest2 : List Char) : parseArrayStart pe (']' :: rest2) =
      some (JValue.jArr [], rest2) := by
  simp [parseArrayStart]

theorem parseArrayStart_open (pe : List Char → Option (List JValue × List Char))
    (c : Char) (cs2 : List Char) (h : c ≠ ']') :
    parseArrayStart pe (c :: cs2) = (pe (c :: cs2)).map (fun p => (JValue.jArr p.1, p.2)) := by
  simp [parseArrayStart, h]

theorem parseObjectStart_open (pf : List Char → Option (List (String × JValue) × List Char))
    (c : Char) (cs2 : List Char) (h : c ≠ '\x7d') :
    parseObjectStart pf (c :: cs2) = (pf (c :: cs2)).map (fun p => (JValue.jObj p.1, p.2)) := by
  simp [parseObjectStart, h]

theorem parseElemsRest_comma (pe : List Char → Option (List JValue × List Char))
    (v : JValue) (rest2 : List Char) :
    parseElemsRest pe v (',' :: rest2) =
      (pe (skipSpaces rest2)).map (fun p => (v :: p.1, p.2)) := by
  simp [parseElemsRest]

theorem parseElemsRest_close (pe : List Char → Option (List JValue × List Char))
    (v : JValue) (rest2 : List Char) :
    parseElemsRest pe v (']' :: rest2) = some ([v], rest2) := by
  simp [parseElemsRest]

theorem parseFieldsRest_comma (pf : List Char → Option (List (String × JValue) × List Char))
    (key : String) (v : JValue) (rest5 : List Char) :
    parseFieldsRest pf key v (',' :: rest5) =
      (pf (skipSpaces rest5)).map (fun p => ((key, v) :: p.1, p.2)) := by
  simp [parseFieldsRest]

theorem parseFieldsRest_close (pf : List Char → Option (List (String × JValue) × List Char))
    (key : String) (v : JValue) (rest5 : List Char) :
    parseFieldsRest pf key v ('\x7d' :: rest5) = some ([(key, v)], rest5) := by
  simp [parseFieldsRest]

theorem parseFieldsColon_some (pv : List Char → Option (JValue × List Char))
    (pf : List Char → Option (List (String × JValue) × List Char))
    (key : String) (rest3 : List Char) (v : JValue) (rest4 : List Char)
    (h : pv (skipSpaces rest3) = some (v, rest4)) :
    parseFieldsColon pv pf key (':' :: rest3) =
      parseFieldsRest pf key v (skipSpaces rest4) := by
  simp [parseFieldsColon, h]

theorem parseFields_quote_some (pv : List Char → Option (JValue × List Char))
    (psb : List Char → Option (List Char × List Char)) (fuel : Nat) (rest : List Char)
    (key rest2 : List Char) (h : psb rest = some (key, rest2)) :
    parseFields pv psb (fuel+1) ('"' :: rest) =
      parseFieldsColon pv (parseFields pv psb fuel) (String.mk key)
        (skipSpaces rest2) := by
  simp [parseFields, h]

theorem parseElems_step_some (pv : List Char → Option (JValue × List Char)) (fuel : Nat)
    (cs : List Char) (v : JValue) (rest : List Char) (h : pv cs = some (v, rest)) :
    parseElems pv (fuel+1) cs =
      parseElemsRest (parseElems pv fuel) v (skipSpaces rest) := by
  simp [parseElems, h]

theorem data_append (a b : String) : (a ++ b).data = a.data ++ b.data := rfl

/-- The serialization of any value starts with a non-space character. -/
theorem dumps_head_nonspace (v : JValue) :
    ∃ c t, (dumps v).data = c :: t ∧ c ≠ ' ' := by
  cases v with
  | jBool b =>
      cases b
      · exact ⟨'f', "alse".data, rfl, by decide⟩
      · exact ⟨'t', "rue".data, rfl, by decide⟩
  | jStr s => exact ⟨'"', escapeList s.data ++ ['"'], rfl, by decide⟩
  | jArr elems => exact ⟨'[', _, rfl, by decide⟩
  | jObj fields => exact ⟨Char.ofNat 123, _, rfl, by decide⟩

/-- Space skipping leaves a list alone when it starts with a non-space. -/
theorem skipSpaces_head (l r : List Char)
    (h : ∃ c t, l = c :: t ∧ c ≠ ' ') : skipSpaces (l ++ r) = l ++ r := by
  obtain ⟨c, t, rfl, hc⟩ := h
  simp only [List.cons_append]
  exact skipSpaces_nonspace c _ hc

/-- Booleans round-trip. -/
theorem RT_jBool (b : Bool) : RT (JValue.jBool b) := by
  intro rest
  refine ⟨1, fun f hf => ?_⟩
  obtain ⟨g, rfl⟩ : ∃ g, f = g + 1 := ⟨f - 1, by omega⟩
  cases b
  · exact parseValue_false g rest
  · exact parseValue_true g rest

/-- Strings round-trip. -/
theorem RT_jStr (s : String) : RT (JValue.jStr s) := by
  intro rest
  obtain ⟨N, hN⟩ := PS_escapeList s.data rest
  refine ⟨N + 1, fun f hf => ?_⟩
  obtain ⟨g, rfl⟩ : ∃ g, f = g + 1 := ⟨f - 1, by omega⟩
  show parseValue (g+1) ('"' :: ((escapeList s.data ++ ['"']) ++ rest)) =
    some (JValue.jStr s, rest)
  have hassoc : (escapeList s.data ++ ['"']) ++ rest =
      escapeList s.data ++ '"' :: rest := by simp
  rw [hassoc, parseValue_quote, hN g (by omega)]
  rfl

/-- The serialized elements of a string array start with a quote. -/
theorem elems_strings_head (x : String) (es : List JValue) :
    ∃ t, (dumpsElems (JValue.jStr x :: es)).data = '"' :: t := by
  cases es with
  | nil => exact ⟨_, rfl⟩
  | cons w es2 => exact ⟨_, rfl⟩

/-- The serialized entries of an object start with a quote. -/
theorem fields_head (k : String) (v : JValue) (fs : List (String × JValue)) :
    ∃ t, (dumpsFields ((k, v) :: fs)).data = '"' :: t := by
  cases fs with
  | nil => exact ⟨_, rfl⟩
  | cons kv2 fs2 => exact ⟨_, rfl⟩

/-- The elements of a non-empty string array parse back, with any
sufficient fuel for the loop and for the element parser. -/
theorem PE_strings (x : String) (xs : List String) :
    ∀ rest : List Char, ∃ N, ∀ f g, N ≤ f → N ≤ g →
      parseElems (parseValue g) f
        ((dumpsElems ((x :: xs).map JValue.jStr)).data ++ ']' :: rest) =
        some ((x :: xs).map JValue.jStr, rest) := by
  induction xs generalizing x with
  | nil =>
      intro rest
      obtain ⟨Nv, hv⟩ := RT_jStr x (']' :: rest)
      refine ⟨Nv + 1, fun f g hf hg => ?_⟩
      obtain ⟨fp, rfl⟩ : ∃ fp, f = fp + 1 := ⟨f - 1, by omega⟩
      have hval : parseValue g ((dumpsElems ([x].map JValue.jStr)).data ++ ']' :: rest) =
          some (JValue.jStr x, ']' :: rest) := hv g (by omega)
      rw [parseElems_step_some _ _ _ _ _ hval]
      rw [skipSpaces_nonspace ']' rest (by decide)]
      rw [parseElemsRest_close]
      rfl
  | cons y ys ih =>
      intro rest
      obtain ⟨Nt, ht⟩ := ih y rest
      obtain ⟨Nv, hv⟩ := RT_jStr x
        (',' :: ' ' :: ((dumpsElems ((y :: ys).map JValue.jStr)).data ++ ']' :: rest))
      refine ⟨Nv + Nt + 1, fun f g hf hg => ?_⟩
      obtain ⟨fp, rfl⟩ : ∃ fp, f = fp + 1 := ⟨f - 1, by omega⟩
      have hshape : (dumpsElems ((x :: y :: ys).map JValue.jStr)).data ++ ']' :: rest =
          (dumps (JValue.jStr x)).data ++ ',' :: ' ' ::
            ((dumpsElems ((y :: ys).map JValue.jStr)).data ++ ']' :: rest) := by
        show (((dumps (JValue.jStr x) ++ ", ") ++
            dumpsElems ((y :: ys).map JValue.jStr)).data) ++ ']' :: rest = _
        simp [data_append, List.append_assoc]
      rw [hshape]
      have hval := hv g (by omega)
      rw [parseElems_step_some _ _ _ _ _ hval]
      rw [skipSpaces_nonspace ',' _ (by decide)]
      rw [parseElemsRest_comma]
      rw [skipSpaces_space]
      obtain ⟨t2, ht2⟩ := elems_strings_head y (ys.map JValue.jStr)
      have hskip : skipSpaces ((dumpsElems ((y :: ys).map JValue.jStr)).data ++
          ']' :: rest) = (dumpsElems ((y :: ys).map JValue.jStr)).data ++ ']' :: rest :=
        skipSpaces_head _ _ ⟨'"', t2, ht2, by decide⟩
      rw [hskip, ht fp g (by omega) (by omega)]
      rfl

/-- Arrays of strings round-trip. -/
theorem RT_jArr_strings (names : List String) :
    RT (JValue.jArr (names.map JValue.jStr)) := by
  intro rest
  cases names with
  | nil =>
      refine ⟨1, fun f hf => ?_⟩
      obtain ⟨g, rfl⟩ : ∃ g, f = g + 1 := ⟨f - 1, by omega⟩
      show parseValue (g+1) ('[' :: ']' :: rest) = some (JValue.jArr [], rest)
      rw [parseValue_bracket, skipSpaces_nonspace ']' rest (by decide),
        parseArrayStart_close]
  | cons x xs =>
      obtain ⟨NPE, hPE⟩ := PE_strings x xs rest
      refine ⟨NPE + 1, fun f hf => ?_⟩
      obtain ⟨g, rfl⟩ : ∃ g, f = g + 1 := ⟨f - 1, by omega⟩
      show parseValue (g+1) ('[' ::
        (((dumpsElems ((x :: xs).map JValue.jStr)).data ++ [']']) ++ rest)) =
        some (JValue.jArr ((x :: xs).map JValue.jStr), rest)
      have hassoc : ((dumpsElems ((x :: xs).map JValue.jStr)).data ++ [']']) ++ rest =
          (dumpsElems ((x :: xs).map JValue.jStr)).data ++ ']' :: rest := by simp
      rw [hassoc, parseValue_bracket]
      simp only [List.map_cons] at hPE ⊢
      obtain ⟨t, ht⟩ := elems_strings_head x (xs.map JValue.jStr)
      rw [skipSpaces_head _ _ ⟨'"', t, ht, by decide⟩]
      have hop : (dumpsElems (JValue.jStr x :: xs.map JValue.jStr)).data ++ ']' :: rest =
          '"' :: (t ++ ']' :: rest) := by rw [ht]; simp
      rw [hop, parseArrayStart_open _ '"' _ (by decide), ← hop,
        hPE g g (by omega) (by omega)]
      rfl

/-- Space skipping leaves serialized values alone. -/
theorem skipSpaces_dumps (v : JValue) (rest : List Char) :
    skipSpaces ((dumps v).data ++ rest) = (dumps v).data ++ rest :=
  skipSpaces_head _ _ (by
    obtain ⟨c, t, hct, hc⟩ := dumps_head_nonspace v
    exact ⟨c, t, hct, hc⟩)

/-- The entries of a non-empty object whose values round-trip parse
back, with any sufficient fuel. -/
theorem PF_fields (k : String) (v : JValue) (fs : List (String × JValue))
    (hRT : ∀ kv ∈ (k, v) :: fs, RT kv.2) :
    ∀ rest : List Char, ∃ N, ∀ f g, N ≤ f → N ≤ g →
      parseFields (parseValue g) (parseStringBody g) f
        ((dumpsFields ((k, v) :: fs)).data ++ Char.ofNat 125 :: rest) =
        some ((k, v) :: fs, rest) := by
  induction fs generalizing k v with
  | nil =>
      intro rest
      obtain ⟨Nk, hk⟩ := PS_escapeList k.data
        (':' :: ' ' :: ((dumps v).data ++ Char.ofNat 125 :: rest))
      obtain ⟨Nv, hv⟩ := hRT (k, v) (by simp) (Char.ofNat 125 :: rest)
      refine ⟨Nk + Nv + 1, fun f g hf hg => ?_⟩
      obtain ⟨fp, rfl⟩ : ∃ fp, f = fp + 1 := ⟨f - 1, by omega⟩
      have hshape : (dumpsFields [(k, v)]).data ++ Char.ofNat 125 :: rest =
          '"' :: (escapeList k.data ++ '"' ::
            (':' :: ' ' :: ((dumps v).data ++ Char.ofNat 125 :: rest))) := by
        show ((dumpString k ++ ": ") ++ dumps v).data ++ Char.ofNat 125 :: rest = _
        simp [data_append, dumpString, List.append_assoc]
      rw [hshape]
      rw [parseFields_quote_some _ _ _ _ _ _ (hk g (by omega))]
      rw [skipSpaces_nonspace ':' _ (by decide)]
      rw [parseFieldsColon_some _ _ _ _ v (Char.ofNat 125 :: rest) ?hpv]
      case hpv =>
        rw [skipSpaces_space, skipSpaces_dumps]
        exact hv g (by omega)
      rw [skipSpaces_nonspace (Char.ofNat 125) _ (by decide)]
      rw [parseFieldsRest_close]
  | cons kv2 fs2 ih =>
      intro rest
      obtain ⟨k2, v2⟩ := kv2
      obtain ⟨Nt, ht⟩ := ih k2 v2 (fun kv hm => hRT kv (by simp at hm ⊢; tauto)) rest
      obtain ⟨Nk, hk⟩ := PS_escapeList k.data
        (':' :: ' ' :: ((dumps v).data ++ ',' :: ' ' ::
          ((dumpsFields ((k2, v2) :: fs2)).data ++ Char.ofNat 125 :: rest)))
      obtain ⟨Nv, hv⟩ := hRT (k, v) (by simp)
        (',' :: ' ' :: ((dumpsFields ((k2, v2) :: fs2)).data ++ Char.ofNat 125 :: rest))
      refine ⟨Nk + Nv + Nt + 1, fun f g hf hg => ?_⟩
      obtain ⟨fp, rfl⟩ : ∃ fp, f = fp + 1 := ⟨f - 1, by omega⟩
      have hshape : (dumpsFields ((k, v) :: (k2, v2) :: fs2)).data ++
          Char.ofNat 125 :: rest =
          '"' :: (escapeList k.data ++ '"' ::
            (':' :: ' ' :: ((dumps v).data ++ ',' :: ' ' ::
              ((dumpsFields ((k2, v2) :: fs2)).data ++ Char.ofNat 125 :: rest)))) := by
        show ((((dumpString k ++ ": ") ++ dumps v) ++ ", ") ++
            dumpsFields ((k2, v2) :: fs2)).data ++ Char.ofNat 125 :: rest = _
        simp [data_append, dumpString, List.append_assoc]
      rw [hshape]
      rw [parseFields_quote_some _ _ _ _ _ _ (hk g (by omega))]
      rw [skipSpaces_nonspace ':' _ (by decide)]
      rw [parseFieldsColon_some _ _ _ _ v
        (',' :: ' ' ::
          ((dumpsFields ((k2, v2) :: fs2)).data ++ Char.ofNat 125 :: rest)) ?hpv2]
      case hpv2 =>
        rw [skipSpaces_space, skipSpaces_dumps]
        exact hv g (by omega)
      rw [skipSpaces_nonspace ',' _ (by decide)]
      rw [parseFieldsRest_comma]
      rw [skipSpaces_space]
      obtain ⟨t2, ht2⟩ := fields_head k2 v2 fs2
      rw [skipSpaces_head _ _ ⟨'"', t2, ht2, by decide⟩]
      rw [ht fp g (by omega) (by omega)]
      rfl

/-- Non-empty objects whose values round-trip, round-trip. -/
theorem RT_jObj (k : String) (v : JValue) (fs : List (String × JValue))
    (hRT : ∀ kv ∈ (k, v) :: fs, RT kv.2) :
    RT (JValue.jObj ((k, v) :: fs)) := by
  intro rest
  obtain ⟨NPF, hPF⟩ := PF_fields k v fs hRT rest
  refine ⟨NPF + 1, fun f hf => ?_⟩
  obtain ⟨g, rfl⟩ : ∃ g, f = g + 1 := ⟨f - 1, by omega⟩
  show parseValue (g+1) (Char.ofNat 123 ::
    (((dumpsFields ((k, v) :: fs)).data ++ [Char.ofNat 125]) ++ rest)) =
    some (JValue.jObj ((k, v) :: fs), rest)
  have hassoc : ((dumpsFields ((k, v) :: fs)).data ++ [Char.ofNat 125]) ++ rest =
      (dumpsFields ((k, v) :: fs)).data ++ Char.ofNat 125 :: rest := by simp
  rw [hassoc, parseValue_brace]
  obtain ⟨t, ht⟩ := fields_head k v fs
  rw [skipSpaces_head _ _ ⟨'"', t, ht, by decide⟩]
  have hop : (dumpsFields ((k, v) :: fs)).data ++ Char.ofNat 125 :: rest =
      '"' :: (t ++ Char.ofNat 125 :: rest) := by rw [ht]; simp
  rw [hop, parseObjectStart_open _ '"' _ (by decide), ← hop,
    hPF g g (by omega) (by omega)]
  rfl

/-- A value with the round-trip property parses back from its full
serialization. -/
theorem parseJson_dumps (v : JValue) (h : RT v) :
    ∃ fuel, parseJson fuel (dumps v) = some v := by
  obtain ⟨N, hN⟩ := h []
  refine ⟨N, ?_⟩
  have : parseValue N ((dumps v).data ++ []) = some (v, []) := hN N (by omega)
  rw [List.append_nil] at this
  simp [parseJson, this]

/-- The success dict round-trips through the parser. -/
theorem successResult_RT (language : Language) (names : List String) :
    RT (successResult language names) := by
  refine RT_jObj "valid" (JValue.jBool true) _ ?_
  intro kv hkv
  simp only [List.mem_cons, List.not_mem_nil, or_false] at hkv
  rcases hkv with rfl | rfl | rfl | rfl
  · exact RT_jBool true
  · exact RT_jStr language.code
  · exact RT_jStr language.name
  · exact RT_jArr_strings names

/-- The failure dict round-trips through the parser. -/
theorem failureResult_RT (e : PyExc) : RT (failureResult e) := by
  refine RT_jObj "valid" (JValue.jBool false) _ ?_
  intro kv hkv
  simp only [List.mem_cons, List.not_mem_nil, or_false] at hkv
  rcases hkv with rfl | rfl | rfl
  · exact RT_jBool false
  · exact RT_jStr e.msg
  · exact RT_jStr e.typeName

example : parseJson 99 (dumps (successResult numLanguage ["Declarative", "Question"])) =
    some (successResult numLanguage ["Declarative", "Question"]) := by rfl

example : parseJson 99 (dumps (failureResult ⟨"boom é 𝄞", "ValueError", true⟩)) =
    some (failureResult ⟨"boom é 𝄞", "ValueError", true⟩) := by rfl

/-! Claim theorems. -/

/-- C1 counterexample: with a loader that raises `SystemExit` — raised during
the guarded load but not an instance of `Exception` — `validate_language`
propagates the raise to its caller instead of returning a JSON string, so the
claim that it never raises for any string input, with every failure path
converted into the Failure variant, is false at this input. -/
theorem C1_counterexample :
    (validate_language sysExitEnv "/packages/broken" []).1 =
      Except.error ⟨"0", "SystemExit", false⟩ ∧
    ∀ s : String,
      (validate_language sysExitEnv "/packages/broken" []).1 ≠ Except.ok s := by
  constructor
  · rfl
  · intro s h
    rw [show (validate_language sysExitEnv "/packages/broken" []).1 =
        Except.error ⟨"0", "SystemExit", false⟩ from rfl] at h
    exact Except.noConfusion h

/-- C1 (amended): provided every failure the external import and load steps
raise is an instance of `Exception`, `validate_language` returns a JSON string
for every string input and never raises: every failure path is converted into
the Failure variant of the result record. -/
theorem C1_total (env : Env) (repo_path : String) (path0 : List String)
    (himport : ∀ sp e, env.importLanguageLoader sp = Except.error e →
      e.isException = true)
    (hload : ∀ sp loader p e, env.importLanguageLoader sp = Except.ok loader →
      loader.load_language_from_source sp p = Except.error e →
      e.isException = true) :
    ∃ s : String, (validate_language env repo_path path0).1 = Except.ok s ∧
      ∃ v : JValue, s = dumps v ∧ (isSuccessSchema v ∨ isFailureSchema v) := by
  cases hb : tryBody env repo_path (repo_path :: path0) with
  | ok v =>
      obtain ⟨language, names, rfl⟩ := tryBody_ok_inv env repo_path _ v hb
      exact ⟨dumps (successResult language names),
        validate_language_fst_of_ok env repo_path path0 _ hb,
        successResult language names, rfl, Or.inl (successResult_schema language names)⟩
  | error e =>
      have he : e.isException = true := by
        rcases tryBody_error_inv env repo_path _ e hb with
          hi | ⟨loader, hi, hl⟩ | ⟨loader, language, hi, hl, hx⟩
        · exact himport _ e hi
        · exact hload _ loader _ e hi hl
        · rw [extractNames_error_inv _ e hx]; rfl
      exact ⟨dumps (failureResult e),
        validate_language_fst_of_caught env repo_path path0 e hb he,
        failureResult e, rfl, Or.inr (failureResult_schema e)⟩

/-- C1 witness: the amended claim applied at the concrete well-behaved
environment and input. -/
theorem C1_witness :
    ∃ s : String, (validate_language goodEnv "/packages/num" []).1 = Except.ok s ∧
      ∃ v : JValue, s = dumps v ∧ (isSuccessSchema v ∨ isFailureSchema v) :=
  C1_total goodEnv "/packages/num" []
    (fun _ _ h => Except.noConfusion h)
    (fun _ loader _ e hok herr => by
      cases (Except.ok.injEq _ _).mp hok
      exact Except.noConfusion herr)

/-- C2: for every `repo_path` whose import succeeds and that the external
loader accepts and loads successfully, with every sentence type carrying its
type name, the output JSON has `valid == true`, `language` equal to the loaded
object's code, `name` equal to its display name, and `sentence_types` an array
of strings equal in length and order to the loader's sentence-type collection
mapped to their type names. -/
theorem C2_success_fields (env : Env) (repo_path : String) (path0 : List String)
    (loader : LanguageLoader) (language : Language) (names : List String)
    (himport : env.importLanguageLoader (repo_path :: path0) = Except.ok loader)
    (hload : loader.load_language_from_source (repo_path :: path0) repo_path =
      Except.ok language)
    (hnames : language.sentence_types.map SentenceType.__name__ = names.map some) :
    (validate_language env repo_path path0).1 =
      Except.ok (dumps (successResult language names)) ∧
    getField (successResult language names) "valid" = some (JValue.jBool true) ∧
    getField (successResult language names) "language" =
      some (JValue.jStr language.code) ∧
    getField (successResult language names) "name" =
      some (JValue.jStr language.name) ∧
    getField (successResult language names) "sentence_types" =
      some (JValue.jArr (names.map JValue.jStr)) ∧
    names.length = language.sentence_types.length := by
  have hx := extractNames_of_names language.sentence_types names hnames
  refine ⟨validate_language_fst_of_ok env repo_path path0 _
    (tryBody_of_ok env repo_path (repo_path :: path0) loader language names
      himport hload hx), rfl, rfl, rfl, rfl, ?_⟩
  have hlen := congrArg List.length hnames
  simpa using hlen.symm

/-- C2 witness: the claim applied at the concrete well-behaved environment. -/
theorem C2_witness :
    (validate_language goodEnv "/packages/num" []).1 =
      Except.ok (dumps (successResult numLanguage ["Declarative", "Question"])) ∧
    getField (successResult numLanguage ["Declarative", "Question"]) "valid" =
      some (JValue.jBool true) ∧
    getField (successResult numLanguage ["Declarative", "Question"]) "language" =
      some (JValue.jStr numLanguage.code) ∧
    getField (successResult numLanguage ["Declarative", "Question"]) "name" =
      some (JValue.jStr numLanguage.name) ∧
    getField (successResult numLanguage ["Declarative", "Question"]) "sentence_types" =
      some (JValue.jArr (["Declarative", "Question"].map JValue.jStr)) ∧
    (["Declarative", "Question"] : List String).length =
      numLanguage.sentence_types.length :=
  C2_success_fields goodEnv "/packages/num" [] goodLoader numLanguage
    ["Declarative", "Question"] rfl rfl rfl

/-- C3 counterexample: a loader failure carrying an empty message (as
`raise ValueError()` produces) yields a Failure JSON whose `error` field is
the empty string, so the claim that `error` is always a non-empty string is
false at this input. -/
theorem C3_counterexample :
    (validate_language emptyMsgEnv "/packages/bad" []).1 =
      Except.ok (dumps (failureResult ⟨"", "ValueError", true⟩)) ∧
    getField (failureResult ⟨"", "ValueError", true⟩) "error" =
      some (JValue.jStr "") ∧
    ¬ ∃ s : String, s ≠ "" ∧
        getField (failureResult ⟨"", "ValueError", true⟩) "error" =
          some (JValue.jStr s) := by
  refine ⟨rfl, rfl, ?_⟩
  rintro ⟨s, hne, hs⟩
  rw [show getField (failureResult ⟨"", "ValueError", true⟩) "error" =
      some (JValue.jStr "") from rfl] at hs
  exact hne ((JValue.jStr.injEq _ _).mp ((Option.some.injEq _ _).mp hs)).symm

/-- C3 (amended): for every `repo_path` that causes the external loader to
raise an instance of `Exception`, the output JSON has `valid == false`,
`error` equal to the failure's message text (which may be empty), and
`error_type` equal to the failure's class name, a non-empty string whenever
the class name is non-empty. -/
theorem C3_failure_fields (env : Env) (repo_path : String) (path0 : List String)
    (loader : LanguageLoader) (e : PyExc)
    (himport : env.importLanguageLoader (repo_path :: path0) = Except.ok loader)
    (hload : loader.load_language_from_source (repo_path :: path0) repo_path =
      Except.error e)
    (hexc : e.isException = true) (htn : e.typeName ≠ "") :
    (validate_language env repo_path path0).1 =
      Except.ok (dumps (failureResult e)) ∧
    getField (failureResult e) "valid" = some (JValue.jBool false) ∧
    getField (failureResult e) "error" = some (JValue.jStr e.msg) ∧
    ∃ et : String, et ≠ "" ∧
      getField (failureResult e) "error_type" = some (JValue.jStr et) :=
  ⟨validate_language_fst_of_caught env repo_path path0 e
     (tryBody_of_load_error env repo_path (repo_path :: path0) loader e himport hload)
     hexc,
   rfl, rfl, ⟨e.typeName, htn, rfl⟩⟩

/-- C3 witness: the amended claim applied at a concrete environment whose
loader raises `FileNotFoundError` for a nonexistent directory. -/
theorem C3_witness :
    (validate_language missingDirEnv "/nonexistent" []).1 =
      Except.ok (dumps (failureResult
        ⟨"No such file or directory", "FileNotFoundError", true⟩)) ∧
    getField (failureResult ⟨"No such file or directory", "FileNotFoundError", true⟩)
      "valid" = some (JValue.jBool false) ∧
    getField (failureResult ⟨"No such file or directory", "FileNotFoundError", true⟩)
      "error" = some (JValue.jStr
        (⟨"No such file or directory", "FileNotFoundError", true⟩ : PyExc).msg) ∧
    ∃ et : String, et ≠ "" ∧
      getField (failureResult
        ⟨"No such file or directory", "FileNotFoundError", true⟩) "error_type" =
        some (JValue.jStr et) :=
  C3_failure_fields missingDirEnv "/nonexistent" []
    ⟨fun _ _ => Except.error
      ⟨"No such file or directory", "FileNotFoundError", true⟩⟩
    ⟨"No such file or directory", "FileNotFoundError", true⟩
    rfl rfl rfl (by decide)

/-- C4: whenever `validate_language` returns a string, it is the
serialization of a JSON object conforming exactly to one of the two declared
schemas: the Success variant with exactly the keys `valid` (true), `language`
(string), `name` (string), `sentence_types` (array of strings), or the
Failure variant with exactly the keys `valid` (false), `error` (string),
`error_type` (string). -/
theorem C4_schema (env : Env) (repo_path : String) (path0 : List String)
    (s : String)
    (h : (validate_language env repo_path path0).1 = Except.ok s) :
    ∃ v : JValue, s = dumps v ∧ (isSuccessSchema v ∨ isFailureSchema v) := by
  cases hb : tryBody env repo_path (repo_path :: path0) with
  | ok v =>
      have hs := (validate_language_fst_of_ok env repo_path path0 v hb).symm.trans h
      obtain ⟨language, names, rfl⟩ := tryBody_ok_inv env repo_path _ v hb
      exact ⟨successResult language names, ((Except.ok.injEq _ _).mp hs).symm,
        Or.inl (successResult_schema language names)⟩
  | error e =>
      cases he : e.isException with
      | true =>
          have hs :=
            (validate_language_fst_of_caught env repo_path path0 e hb he).symm.trans h
          exact ⟨failureResult e, ((Except.ok.injEq _ _).mp hs).symm,
            Or.inr (failureResult_schema e)⟩
      | false =>
          exact Except.noConfusion
            ((validate_language_fst_of_uncaught env repo_path path0 e hb he).symm.trans h)

/-- C4 witness: the claim applied at the concrete well-behaved environment. -/
theorem C4_witness :
    ∃ v : JValue,
      dumps (successResult numLanguage ["Declarative", "Question"]) = dumps v ∧
      (isSuccessSchema v ∨ isFailureSchema v) :=
  C4_schema goodEnv "/packages/num" []
    (dumps (successResult numLanguage ["Declarative", "Question"])) rfl

/-- C5: whenever `validate_language` returns a string, it is the
serialization of a flat JSON object — no nested objects beyond the
`sentence_types` array of strings — that parses back as exactly that
object, always contains the `valid` key, and `valid` is the discriminant:
exactly one of the two variants is populated. -/
theorem C5_flat_discriminant (env : Env) (repo_path : String)
    (path0 : List String) (s : String)
    (h : (validate_language env repo_path path0).1 = Except.ok s) :
    ∃ v : JValue, s = dumps v ∧ isFlatObj v ∧
      (∃ fuel, parseJson fuel s = some v) ∧
      ∃ b : Bool, getField v "valid" = some (JValue.jBool b) ∧
        (b = true → isSuccessSchema v ∧ ¬ isFailureSchema v) ∧
        (b = false → isFailureSchema v ∧ ¬ isSuccessSchema v) := by
  cases hb : tryBody env repo_path (repo_path :: path0) with
  | ok v =>
      have hs := (validate_language_fst_of_ok env repo_path path0 v hb).symm.trans h
      obtain ⟨language, names, rfl⟩ := tryBody_ok_inv env repo_path _ v hb
      have heq : s = dumps (successResult language names) :=
        ((Except.ok.injEq _ _).mp hs).symm
      obtain ⟨fuel0, hparse⟩ :=
        parseJson_dumps _ (successResult_RT language names)
      refine ⟨successResult language names, heq,
        successResult_flat language names, ⟨fuel0, by rw [heq]; exact hparse⟩,
        true, rfl, ?_, ?_⟩
      · intro _
        exact ⟨successResult_schema language names,
          fun hf => not_success_and_failure _ (successResult_schema language names) hf⟩
      · intro hfalse; exact Bool.noConfusion hfalse
  | error e =>
      cases he : e.isException with
      | true =>
          have hs :=
            (validate_language_fst_of_caught env repo_path path0 e hb he).symm.trans h
          have heq : s = dumps (failureResult e) := ((Except.ok.injEq _ _).mp hs).symm
          obtain ⟨fuel0, hparse⟩ := parseJson_dumps _ (failureResult_RT e)
          refine ⟨failureResult e, heq,
            failureResult_flat e, ⟨fuel0, by rw [heq]; exact hparse⟩,
            false, rfl, ?_, ?_⟩
          · intro htrue; exact Bool.noConfusion htrue
          · intro _
            exact ⟨failureResult_schema e,
              fun hsucc => not_success_and_failure _ hsucc (failureResult_schema e)⟩
      | false =>
          exact Except.noConfusion
            ((validate_language_fst_of_uncaught env repo_path path0 e hb he).symm.trans h)

/-- C5 witness: the claim applied at a concrete environment whose loader
raises `FileNotFoundError`, producing the Failure variant. -/
theorem C5_witness :
    ∃ v : JValue,
      dumps (failureResult
        ⟨"No such file or directory", "FileNotFoundError", true⟩) = dumps v ∧
      isFlatObj v ∧
      (∃ fuel, parseJson fuel (dumps (failureResult
        ⟨"No such file or directory", "FileNotFoundError", true⟩)) = some v) ∧
      ∃ b : Bool, getField v "valid" = some (JValue.jBool b) ∧
        (b = true → isSuccessSchema v ∧ ¬ isFailureSchema v) ∧
        (b = false → isFailureSchema v ∧ ¬ isSuccessSchema v) :=
  C5_flat_discriminant missingDirEnv "/nonexistent" []
    (dumps (failureResult
      ⟨"No such file or directory", "FileNotFoundError", true⟩)) rfl

/-- C6: every invocation, on success and failure alike, prepends `repo_path`
to the process-wide module-resolution search list, never reverts the change,
and leaves the rest of the list unchanged, so repeated invocations with
different paths accumulate entries. -/
theorem C6_path_accumulates (env : Env) (repo_path : String) (path0 : List String) :
    (validate_language env repo_path path0).2 = repo_path :: path0 ∧
    ∀ (env2 : Env) (p2 : String),
      (validate_language env2 p2 (validate_language env repo_path path0).2).2 =
        p2 :: repo_path :: path0 :=
  ⟨rfl, fun _ _ => rfl⟩

/-- C7 counterexample: a `SystemExit` raised during the load is a failure
raised during the load step, yet no Failure variant carrying its message
and class name is produced — `validate_language` re-raises it instead —
so the claim, universal over every failure raised during the load or
field-extraction step, is false at this input. -/
theorem C7_counterexample :
    (validate_language exitingLoaderEnv "/packages/num" []).1 =
      Except.error ⟨"2", "SystemExit", false⟩ ∧
    ∀ s : String,
      (validate_language exitingLoaderEnv "/packages/num" []).1 ≠ Except.ok s := by
  constructor
  · rfl
  · intro s h
    rw [show (validate_language exitingLoaderEnv "/packages/num" []).1 =
        Except.error ⟨"2", "SystemExit", false⟩ from rfl] at h
    exact Except.noConfusion h

/-- C7 (amended): for every failure raised during the load or the
field-extraction step (the import itself having succeeded) that is an
instance of `Exception`, the Failure variant's `error` field is the
failure's own message text and its `error_type` field is exactly the
underlying failure's class name, passed through without further
categorization and without re-raising; a failure not deriving from
`Exception` is re-raised instead (see C10). -/
theorem C7_passthrough (env : Env) (repo_path : String) (path0 : List String)
    (loader : LanguageLoader) (e : PyExc)
    (himport : env.importLanguageLoader (repo_path :: path0) = Except.ok loader)
    (hfail : loader.load_language_from_source (repo_path :: path0) repo_path =
        Except.error e ∨
      (∃ language,
        loader.load_language_from_source (repo_path :: path0) repo_path =
          Except.ok language ∧
        extractNames language.sentence_types = Except.error e))
    (hexc : e.isException = true) :
    (validate_language env repo_path path0).1 =
      Except.ok (dumps (failureResult e)) ∧
    getField (failureResult e) "error" = some (JValue.jStr e.msg) ∧
    getField (failureResult e) "error_type" = some (JValue.jStr e.typeName) := by
  have hbody : tryBody env repo_path (repo_path :: path0) = Except.error e := by
    rcases hfail with hl | ⟨language, hl, hx⟩
    · exact tryBody_of_load_error env repo_path _ loader e himport hl
    · exact tryBody_of_extract_error env repo_path _ loader language e himport hl hx
  exact ⟨validate_language_fst_of_caught env repo_path path0 e hbody hexc, rfl, rfl⟩

/-- C7 witness: the claim applied at a concrete environment whose loader
raises a `ValueError` for a malformed package. -/
theorem C7_witness :
    (validate_language badGrammarEnv "/packages/mangled" []).1 =
      Except.ok (dumps (failureResult
        ⟨"invalid grammar file", "ValueError", true⟩)) ∧
    getField (failureResult ⟨"invalid grammar file", "ValueError", true⟩)
      "error" = some (JValue.jStr
        (⟨"invalid grammar file", "ValueError", true⟩ : PyExc).msg) ∧
    getField (failureResult ⟨"invalid grammar file", "ValueError", true⟩)
      "error_type" = some (JValue.jStr
        (⟨"invalid grammar file", "ValueError", true⟩ : PyExc).typeName) :=
  C7_passthrough badGrammarEnv "/packages/mangled" []
    ⟨fun _ _ => Except.error ⟨"invalid grammar file", "ValueError", true⟩⟩
    ⟨"invalid grammar file", "ValueError", true⟩
    rfl (Or.inl rfl) rfl

/-- C8: the import of the external loader library occurs inside the guarded
region: when `yaduha.loader` cannot be imported, `validate_language` returns
the Failure variant JSON carrying the import error's message and class name
rather than letting the import error escape. -/
theorem C8_import_failure_guarded (env : Env) (repo_path : String)
    (path0 : List String) (e : PyExc)
    (himport : env.importLanguageLoader (repo_path :: path0) = Except.error e)
    (hexc : e.isException = true) :
    (validate_language env repo_path path0).1 =
      Except.ok (dumps (failureResult e)) ∧
    getField (failureResult e) "valid" = some (JValue.jBool false) ∧
    getField (failureResult e) "error" = some (JValue.jStr e.msg) ∧
    getField (failureResult e) "error_type" = some (JValue.jStr e.typeName) :=
  ⟨validate_language_fst_of_caught env repo_path path0 e
     (tryBody_of_import_error env repo_path (repo_path :: path0) e himport) hexc,
   rfl, rfl, rfl⟩

/-- C8 witness: the claim applied at a concrete environment in which
the importing step raises `ModuleNotFoundError`. -/
theorem C8_witness :
    (validate_language noModuleEnv "/packages/num" []).1 =
      Except.ok (dumps (failureResult
        ⟨"No module named yaduha", "ModuleNotFoundError", true⟩)) ∧
    getField (failureResult ⟨"No module named yaduha", "ModuleNotFoundError", true⟩)
      "valid" = some (JValue.jBool false) ∧
    getField (failureResult ⟨"No module named yaduha", "ModuleNotFoundError", true⟩)
      "error" = some (JValue.jStr
        (⟨"No module named yaduha", "ModuleNotFoundError", true⟩ : PyExc).msg) ∧
    getField (failureResult ⟨"No module named yaduha", "ModuleNotFoundError", true⟩)
      "error_type" = some (JValue.jStr
        (⟨"No module named yaduha", "ModuleNotFoundError", true⟩ : PyExc).typeName) :=
  C8_import_failure_guarded noModuleEnv "/packages/num" []
    ⟨"No module named yaduha", "ModuleNotFoundError", true⟩ rfl rfl

/-- C9: when any element of the loader's `sentence_types` collection lacks a
`__name__` attribute, the field-extraction failure is caught inside the
guarded region and `validate_language` returns the Failure variant with
`error_type` equal to `AttributeError` instead of raising. -/
theorem C9_missing_name_reported (env : Env) (repo_path : String)
    (path0 : List String) (loader : LanguageLoader) (language : Language)
    (st : SentenceType)
    (himport : env.importLanguageLoader (repo_path :: path0) = Except.ok loader)
    (hload : loader.load_language_from_source (repo_path :: path0) repo_path =
      Except.ok language)
    (hst : st ∈ language.sentence_types) (hname : st.__name__ = none) :
    ∃ e : PyExc,
      (validate_language env repo_path path0).1 =
        Except.ok (dumps (failureResult e)) ∧
      e.typeName = "AttributeError" := by
  have hx := extractNames_of_missing language.sentence_types st hst hname
  exact ⟨attrNameError,
    validate_language_fst_of_caught env repo_path path0 attrNameError
      (tryBody_of_extract_error env repo_path (repo_path :: path0) loader language
        attrNameError himport hload hx) rfl,
    rfl⟩

/-- C9 witness: the claim applied at a concrete environment whose loaded
language has a second sentence type lacking `__name__`. -/
theorem C9_witness :
    ∃ e : PyExc,
      (validate_language badTypesEnv "/packages/num" []).1 =
        Except.ok (dumps (failureResult e)) ∧
      e.typeName = "AttributeError" :=
  C9_missing_name_reported badTypesEnv "/packages/num" []
    ⟨fun _ _ => Except.ok
      ⟨"num", "Numeric Language", [⟨some "Declarative"⟩, ⟨none⟩]⟩⟩
    ⟨"num", "Numeric Language", [⟨some "Declarative"⟩, ⟨none⟩]⟩
    ⟨none⟩ rfl rfl (by simp) rfl

/-- C10: the catch boundary converts to the Failure variant exactly those
failures that are instances of `Exception`: a failure raised during the
guarded body that does not derive from `Exception` (such as
`KeyboardInterrupt` or `SystemExit`) is not caught and propagates out of
`validate_language`. -/
theorem C10_catch_boundary (env : Env) (repo_path : String)
    (path0 : List String) (e : PyExc)
    (hbody : tryBody env repo_path (repo_path :: path0) = Except.error e) :
    (validate_language env repo_path path0).1 =
      if e.isException then Except.ok (dumps (failureResult e))
      else Except.error e := by
  simp [validate_language, hbody]

/-- C10 witness: the claim applied at a concrete environment whose loader
raises `KeyboardInterrupt`; the raise propagates. -/
theorem C10_witness :
    (validate_language keyboardEnv "/packages/num" []).1 =
      if (⟨"", "KeyboardInterrupt", false⟩ : PyExc).isException
      then Except.ok (dumps (failureResult ⟨"", "KeyboardInterrupt", false⟩))
      else Except.error ⟨"", "KeyboardInterrupt", false⟩ :=
  C10_catch_boundary keyboardEnv "/packages/num" []
    ⟨"", "KeyboardInterrupt", false⟩ rfl

end PyValidate
